import Mathlib

/-!
Verification development for the unified VoIP call broker
(Asterisk AMI client + Twilio service + unified call service).

The definitions below are shallow embeddings of the TypeScript source:
pure record builders and store transformers for the call-lifecycle
operations, the Twilio status lookup, the provider router, the AMI
pending-action correlation table, the AMI frame builder, and the
reconnect-backoff supervisor.  Timestamps are milliseconds as `Nat`;
computed durations are `Int` with floor division, matching
`Math.floor((a - b) / 1000)` in JavaScript.
-/

namespace VoIP

/-- The five canonical call statuses (`types/call.types.ts`). -/
inductive CallStatus
  | incoming
  | outgoing
  | connected
  | ended
  | failed
  deriving DecidableEq, Repr

/-- The two backends a call can belong to. -/
inductive Provider
  | asterisk
  | twilio
  deriving DecidableEq, Repr

/-- One call record, as stored in the call repository.  Field names follow
the source `Call` interface; `duration` is the source's name for the
duration-in-seconds field. -/
structure Call where
  id : String
  «from» : String
  «to» : String
  status : CallStatus
  startTime : Nat
  endTime : Option Nat := none
  duration : Option Int := none
  channel : Option String := none
  twilioCallSid : Option String := none
  provider : Provider
  deriving DecidableEq, Repr

/-- The event types emitted to the notification sink
(`type` field of `CallEvent`). -/
inductive EventType
  | incoming
  | outgoing
  | connected
  | ended
  | failed
  deriving DecidableEq, Repr

/-- A lifecycle notification (payload `data` omitted; the claims only
concern the kind and the call id). -/
structure CallEvent where
  type : EventType
  callId : String
  deriving DecidableEq, Repr

/-- A partial update passed to `callRepository.updateCall`: only the fields
the lifecycle operations actually write (`status`, `endTime`, `duration`).
`none` means the field is absent from the partial and is left unchanged. -/
structure CallUpdate where
  status : Option CallStatus := none
  endTime : Option Nat := none
  duration : Option Int := none
  deriving DecidableEq, Repr

/-- Merge semantics of a partial update: only named fields change. -/
def applyUpdate (c : Call) (u : CallUpdate) : Call :=
  { c with
    status := u.status.getD c.status,
    endTime := match u.endTime with | some t => some t | none => c.endTime,
    duration := match u.duration with | some d => some d | none => c.duration }

/-- Modelled from the spec: the in-memory call record store of
`repositories/call.repository.ts`, which is not among the provided source
files.  Spec §4.4: a mapping from call identifier to `Call` supporting
create (permissive replace on an existing id), get-by-id and partial
update with merge semantics. -/
abbrev CallStore := List (String × Call)

/-- Modelled from the spec: `callRepository.getCall` — lookup by id. -/
def getCall (s : CallStore) (callId : String) : Option Call :=
  match s with
  | [] => none
  | (k, c) :: rest => if k = callId then some c else getCall rest callId

/-- Modelled from the spec: `callRepository.createCall` — insert, replacing
any existing record with the same id (the store is permissive, §4.4). -/
def createCall (s : CallStore) (c : Call) : CallStore :=
  match s with
  | [] => [(c.id, c)]
  | (k, c0) :: rest => if k = c.id then (k, c) :: rest else (k, c0) :: createCall rest c

/-- Modelled from the spec: `callRepository.updateCall` — partial update
with merge semantics on the record stored under `callId`. -/
def updateCall (s : CallStore) (callId : String) (u : CallUpdate) : CallStore :=
  match s with
  | [] => []
  | (k, c) :: rest =>
    if k = callId then (k, applyUpdate c u) :: updateCall rest callId u
    else (k, c) :: updateCall rest callId u

/-- `mapTwilioStatusToCallStatus` (twilio service): the fixed lookup from
Twilio status strings to the five canonical statuses.  Direct translation
of the source `switch`. -/
def mapTwilioStatusToCallStatus (twilioStatus : String) : CallStatus :=
  if twilioStatus = "queued" ∨ twilioStatus = "ringing" then .incoming
  else if twilioStatus = "in-progress" then .connected
  else if twilioStatus = "completed" ∨ twilioStatus = "busy" ∨
      twilioStatus = "no-answer" ∨ twilioStatus = "failed" ∨
      twilioStatus = "canceled" then .ended
  else .failed

/-- Errors thrown by the asterisk-service lifecycle operations. -/
inductive CallError
  | notFound
  | notIncoming
  | noChannel
  | amiFailed
  deriving DecidableEq, Repr

/-- `Math.floor((endMs - startMs) / 1000)`: floor division on the signed
millisecond difference, as JavaScript computes durations. -/
def durationSecondsOf (startMs endMs : Nat) : Int :=
  Int.fdiv ((endMs : Int) - (startMs : Int)) 1000

/-- `acceptCall` (asterisk service): look the call up, require status
`incoming`, set it `connected`, emit one `connected` event.  The store is
returned unchanged alongside the error on every failure path. -/
def acceptCall (s : CallStore) (callId : String) :
    CallStore × Except CallError CallEvent :=
  match getCall s callId with
  | none => (s, .error .notFound)
  | some call =>
    if call.status ≠ .incoming then (s, .error .notIncoming)
    else (updateCall s callId { status := some .connected },
          .ok { type := .connected, callId := call.id })

/-- `rejectCall` (asterisk service): look the call up, require status
`incoming`, set status `ended` and `endTime` (the source writes no
`duration` here), emit one `ended` event.  The AMI `Hangup` attempt inside
the source is wrapped in a try/catch that swallows its error and has no
effect on the stored record, so it does not appear in the embedding. -/
def rejectCall (s : CallStore) (callId : String) (now : Nat) :
    CallStore × Except CallError CallEvent :=
  match getCall s callId with
  | none => (s, .error .notFound)
  | some call =>
    if call.status ≠ .incoming then (s, .error .notIncoming)
    else (updateCall s callId { status := some .ended, endTime := some now },
          .ok { type := .ended, callId := call.id })

/-- `hangupCall` (asterisk service): look the call up, require a channel
(no status check in the source), optionally send AMI `Hangup` (whose
failure propagates when connected), then set status `ended`, `endTime` and
`duration`, and emit one `ended` event. -/
def hangupCall (s : CallStore) (callId : String) (now : Nat)
    (isConnected amiOk : Bool) : CallStore × Except CallError CallEvent :=
  match getCall s callId with
  | none => (s, .error .noChannel)
  | some call =>
    match call.channel with
    | none => (s, .error .noChannel)
    | some _ =>
      if isConnected && !amiOk then (s, .error .amiFailed)
      else (updateCall s callId
              { status := some .ended, endTime := some now,
                duration := some (durationSecondsOf call.startTime now) },
            .ok { type := .ended, callId := callId })

/-- The record `makeCall` (asterisk service) creates after originating:
status `outgoing`, fresh start time, no end time or duration. -/
def makeCallRecord (fromNum toNum callId : String) (now : Nat)
    (chanSuffix : Nat) : Call :=
  { id := callId, «from» := fromNum, «to» := toNum, status := .outgoing,
    startTime := now,
    channel := some ("SIP/" ++ fromNum ++ "-" ++ toString chanSuffix),
    provider := .asterisk }

/-- The record `handleIncomingCall` (asterisk service) creates for a
`Newchannel` AMI event: status `incoming`, no end time or duration. -/
def incomingCallRecord (callId callerIdNum exten : String) (now : Nat)
    (chan : Option String) : Call :=
  { id := callId, «from» := callerIdNum, «to» := exten, status := .incoming,
    startTime := now, channel := chan, provider := .asterisk }

/-- `handleCallHangup` (asterisk service): a `Hangup` AMI event for a known
call id sets status `ended` with `endTime` and `duration` and emits one
`ended` event; an unknown or missing id does nothing. -/
def handleCallHangup (s : CallStore) (uniqueid : Option String) (now : Nat) :
    CallStore × List CallEvent :=
  match uniqueid with
  | none => (s, [])
  | some callId =>
    match getCall s callId with
    | none => (s, [])
    | some call =>
      (updateCall s callId
         { status := some .ended, endTime := some now,
           duration := some (durationSecondsOf call.startTime now) },
       [{ type := .ended, callId := callId }])

/-- `handleCallConnected` (asterisk service): a `Newstate` AMI event with
`ChannelState = "6"` for a known call id sets status `connected` and emits
one `connected` event, unless the call is already `connected`, in which
case nothing happens. -/
def handleCallConnected (s : CallStore) (uniqueid : Option String) :
    CallStore × List CallEvent :=
  match uniqueid with
  | none => (s, [])
  | some callId =>
    match getCall s callId with
    | none => (s, [])
    | some call =>
      if call.status ≠ .connected then
        (updateCall s callId { status := some .connected },
         [{ type := .connected, callId := callId }])
      else (s, [])

/-- The fields of a Twilio voice webhook body used by
`handleIncomingWebhook`. -/
structure TwilioWebhookBody where
  CallSid : Option String
  From : String
  To : String
  CallStatus : String
  Direction : String
  deriving DecidableEq, Repr

/-- The record the webhook handler creates for a new call. -/
def webhookCallRecord (b : TwilioWebhookBody) (callId : String) (now : Nat) :
    Call :=
  { id := callId, «from» := b.From, «to» := b.To,
    status := if b.Direction = "inbound" then .incoming else .outgoing,
    startTime := now,
    channel := some ("Twilio/" ++ b.CallSid.getD "undefined"),
    twilioCallSid := b.CallSid, provider := .twilio }

/-- `handleIncomingWebhook` (twilio service): create a record on the first
`ringing`/`in-progress` webhook for an unknown CallSid; for a known call,
map the Twilio status through the fixed lookup and update only when the
mapped status differs from the current one, attaching `endTime` and
`duration` exactly when the raw Twilio status is `completed`, `busy`,
`no-answer` or `failed`.  Emits at most one event.  `freshId` stands for
the `generateId()` fallback used when `CallSid` is absent. -/
def handleIncomingWebhook (s : CallStore) (b : TwilioWebhookBody) (now : Nat)
    (freshId : String) : CallStore × List CallEvent :=
  let callId := b.CallSid.getD freshId
  match getCall s callId with
  | none =>
    if b.CallStatus = "ringing" ∨ b.CallStatus = "in-progress" then
      let call := webhookCallRecord b callId now
      (createCall s call,
       [{ type := if b.Direction = "inbound" then .incoming else .outgoing,
          callId := callId }])
    else (s, [])
  | some existingCall =>
    let updatedStatus := mapTwilioStatusToCallStatus b.CallStatus
    if updatedStatus ≠ existingCall.status then
      let isFinal := b.CallStatus = "completed" ∨ b.CallStatus = "busy" ∨
        b.CallStatus = "no-answer" ∨ b.CallStatus = "failed"
      (updateCall s callId
         { status := some updatedStatus,
           endTime := if isFinal then some now else none,
           duration := if isFinal then
             some (durationSecondsOf existingCall.startTime now) else none },
       [{ type := if updatedStatus = .connected then .connected else .ended,
          callId := callId }])
    else (s, [])

/-- The fields of a Twilio dial-status webhook body used by
`handleDialStatus`; `DialCallDuration` is already parsed, `none` standing
for an absent or non-numeric value (the source applies `|| 0`). -/
structure DialStatusBody where
  CallSid : Option String
  DialCallStatus : String
  DialCallDuration : Option Int
  deriving DecidableEq, Repr

/-- `handleDialStatus` (twilio service): for a known CallSid, a
`completed` dial status sets `ended` with `endTime` and the reported
`duration`; `busy` or `no-answer` sets `ended` with `endTime` only; any
other status leaves the record alone and emits nothing. -/
def handleDialStatus (s : CallStore) (b : DialStatusBody) (now : Nat) :
    CallStore × List CallEvent :=
  match b.CallSid with
  | none => (s, [])
  | some sid =>
    match getCall s sid with
    | none => (s, [])
    | some _ =>
      if b.DialCallStatus = "completed" then
        (updateCall s sid
           { status := some .ended, endTime := some now,
             duration := some (b.DialCallDuration.getD 0) },
         [{ type := .ended, callId := sid }])
      else if b.DialCallStatus = "busy" ∨ b.DialCallStatus = "no-answer" then
        (updateCall s sid { status := some .ended, endTime := some now },
         [{ type := .ended, callId := sid }])
      else (s, [])

/-- A call-initiation request (`CallRequest` in `types/call.types.ts`). -/
structure CallRequest where
  «from» : String
  «to» : String
  provider : Option Provider := none
  deriving DecidableEq, Repr

/-- `String.startsWith`, embedded as character-list prefix (the source's
byte-level `substrEq` on a whole valid UTF-8 pattern coincides with
character-prefix). -/
def strStartsWith (s pat : String) : Bool :=
  pat.data.isPrefixOf s.data

/-- `determineProvider` (call service): explicit provider wins; otherwise
a destination starting with `+` or longer than 6 characters routes to
Twilio, everything else to Asterisk. -/
def determineProvider (request : CallRequest) : Provider :=
  match request.provider with
  | some p => p
  | none =>
    if strStartsWith request.to "+" || request.to.length > 6 then .twilio
    else .asterisk

/-- A parsed AMI message: only the fields the dispatch logic inspects.
`ActionID = none` models a message without an `ActionID` key (the source
tests JavaScript truthiness of `message.ActionID`). -/
structure AmiMessage where
  ActionID : Option String := none
  Event : Option String := none
  Response : Option String := none
  deriving DecidableEq, Repr

/-- The pending-action table: action identifier to the waiting caller,
represented by an opaque caller token.  (`pendingActions` maps ids to
resolve callbacks in the source.) -/
abbrev PendingActions := List (String × Nat)

/-- `pendingActions.has(id)`. -/
def pendingHas (p : PendingActions) (aid : String) : Bool :=
  match p with
  | [] => false
  | (k, _) :: rest => if k = aid then true else pendingHas rest aid

/-- `pendingActions.get(id)`. -/
def pendingGet (p : PendingActions) (aid : String) : Option Nat :=
  match p with
  | [] => none
  | (k, caller) :: rest => if k = aid then some caller else pendingGet rest aid

/-- `pendingActions.delete(id)`. -/
def pendingDelete (p : PendingActions) (aid : String) : PendingActions :=
  match p with
  | [] => []
  | (k, caller) :: rest =>
    if k = aid then pendingDelete rest aid
    else (k, caller) :: pendingDelete rest aid

/-- What `handleAmiMessage` does with one inbound message. -/
inductive AmiDisposition
  | resolvedCaller (caller : Nat) (msg : AmiMessage)
  | handledEvent (msg : AmiMessage)
  | ignored
  deriving DecidableEq, Repr

/-- `handleAmiMessage` (asterisk service): a message whose `ActionID`
matches a pending entry resolves that caller and removes the entry;
otherwise a message with an `Event` field is routed to event handling;
anything else is dropped. -/
def handleAmiMessage (p : PendingActions) (msg : AmiMessage) :
    PendingActions × AmiDisposition :=
  match msg.ActionID with
  | some aid =>
    match pendingGet p aid with
    | some caller => (pendingDelete p aid, .resolvedCaller caller msg)
    | none =>
      if msg.Event.isSome then (p, .handledEvent msg) else (p, .ignored)
  | none =>
    if msg.Event.isSome then (p, .handledEvent msg) else (p, .ignored)

/-- The 10-second timeout callback of `sendAmiCommand`: if the entry is
still pending, remove it and reject the caller with the timeout error
(the returned flag is `true` exactly when the caller was failed). -/
def fireActionTimeout (p : PendingActions) (aid : String) :
    PendingActions × Bool :=
  if pendingHas p aid then (pendingDelete p aid, true) else (p, false)

/-- The fixed per-command timeout (milliseconds) in `sendAmiCommand`. -/
def amiCommandTimeoutMs : Nat := 10000

/-- The frame `sendAmiCommand` writes to the socket:
`Action:` line, `ActionID:` line, one `Key: Value` line per parameter in
order, then the terminating `\r\n` — each line `\r\n`-terminated, exactly
as the source concatenates them. -/
def buildAmiMessage (command : String) (params : List (String × String))
    (actionIdValue : String) : String :=
  (params.foldl (fun m kv => m ++ kv.1 ++ ": " ++ kv.2 ++ "\r\n")
    ("Action: " ++ command ++ "\r\nActionID: " ++ actionIdValue ++ "\r\n"))
  ++ "\r\n"

/-- The logical lines of an outbound frame, in the order the source writes
them: `Action`, then `ActionID`, then the parameters. -/
def amiMessageLines (command : String) (params : List (String × String))
    (actionIdValue : String) : List String :=
  ("Action: " ++ command) :: ("ActionID: " ++ actionIdValue)
    :: params.map (fun kv => kv.1 ++ ": " ++ kv.2)

/-- The parameter map `makeCall` passes to `sendAmiCommand` for
`Originate` — note the `ActionID` entry carrying the call id, in addition
to the `ActionID` header line `sendAmiCommand` itself writes. -/
def makeCallOriginateParams (fromNum toNum callId : String) :
    List (String × String) :=
  [("Channel", "SIP/" ++ fromNum), ("Context", "default"),
   ("Exten", toNum), ("Priority", "1"), ("CallerID", fromNum),
   ("Timeout", "30000"), ("ActionID", callId)]

/-- Occurrences of `pat` as a sublist anywhere in `l` (used to count
`ActionID:` marks inside a rendered frame). -/
def countOcc (pat : List Char) : List Char → Nat
  | [] => 0
  | c :: rest =>
    (if pat.isPrefixOf (c :: rest) then 1 else 0) + countOcc pat rest

/-- `maxRetries` (asterisk service). -/
def maxRetries : Nat := 5

/-- The reconnection supervisor's mutable state: the consecutive-failure
counter and the armed timer's delay, if one is armed. -/
structure ReconnState where
  connectionAttempts : Nat
  reconnectTimer : Option Nat
  deriving DecidableEq, Repr

/-- `scheduleReconnect` (asterisk service): a no-op while a timer is
armed; otherwise increment the attempt counter, give up (arming nothing)
once the counter has reached `maxRetries`, else arm a timer with delay
`min(1000 * 2 ^ attempts, 30000)` computed from the incremented counter. -/
def scheduleReconnect (s : ReconnState) : ReconnState :=
  if s.reconnectTimer.isSome then s
  else
    let attempts := s.connectionAttempts + 1
    if attempts ≥ maxRetries then { s with connectionAttempts := attempts }
    else { connectionAttempts := attempts,
           reconnectTimer := some (min (1000 * 2 ^ attempts) 30000) }

/-- The armed timer firing: it clears itself and starts a connection
attempt (`connectToAsterisk`). -/
def reconnectTimerFires (s : ReconnState) : ReconnState :=
  { s with reconnectTimer := none }

/-- One failed reconnect cycle: the timer fires, the connection attempt
fails, and the error handler calls `scheduleReconnect` again. -/
def failedAttemptCycle (s : ReconnState) : ReconnState :=
  scheduleReconnect (reconnectTimerFires s)

/-- Supervisor state after the n-th consecutive failure, starting from a
fresh counter: the initial connection failure schedules the first
reconnect, and every armed timer's attempt fails again. -/
def reconnStateAfter : Nat → ReconnState
  | 0 => scheduleReconnect { connectionAttempts := 0, reconnectTimer := none }
  | n + 1 => failedAttemptCycle (reconnStateAfter n)

/-- `reconnect` (asterisk service): reset the attempt counter, clear any
armed timer, and call `connectToAsterisk` at once (the returned flag
records that an immediate attempt is made). -/
def reconnect (_s : ReconnState) : ReconnState × Bool :=
  ({ connectionAttempts := 0, reconnectTimer := none }, true)

/-- The connection flags of the AMI client that the `sendAmiCommand`
entry guard reads: `isConnected`, and whether `amiSocket` is non-null. -/
structure AmiConnState where
  isConnected : Bool
  socketPresent : Bool
  deriving DecidableEq, Repr

/-- Service construction: not connected, no socket yet. -/
def initialAmiConnState : AmiConnState :=
  { isConnected := false, socketPresent := false }

/-- The entry guard of `sendAmiCommand`: the command is accepted only when
`isConnected` holds and the socket object exists; otherwise the promise is
rejected immediately. -/
def sendAmiCommandAccepts (s : AmiConnState) : Bool :=
  s.isConnected && s.socketPresent

/-- The outcome of calling `sendAmiCommand` as far as the entry guard
decides it (`.ok` meaning the command proceeds to be written). -/
def sendAmiCommandOutcome (s : AmiConnState) : Except String Unit :=
  if s.isConnected && s.socketPresent then .ok ()
  else .error "Not connected to Asterisk AMI"

/-- The events that touch the connection flags.  `socketConnect` models
the socket's `connect` handler: it submits `Login` through
`sendAmiCommand` before `isConnected` is assigned, so the success path
(which would set `isConnected := true` and reset the attempt counter) can
only run if the entry guard already accepted — an over-approximation that
lets `Login` succeed whenever the guard passes.  `error`/`close` handlers
and `cleanup` clear the flag. -/
inductive AmiConnEvent
  | connectStart
  | socketConnect
  | socketError
  | socketClose
  | cleanupEvent
  deriving DecidableEq, Repr

/-- One step of the connection-flag state machine. -/
def amiConnStep (s : AmiConnState) : AmiConnEvent → AmiConnState
  | .connectStart => { s with socketPresent := true }
  | .socketConnect =>
    if sendAmiCommandAccepts s then { s with isConnected := true }
    else { s with isConnected := false }
  | .socketError => { s with isConnected := false }
  | .socketClose => { s with isConnected := false }
  | .cleanupEvent => { isConnected := false, socketPresent := false }

/-- States reachable from service construction. -/
inductive AmiConnReachable : AmiConnState → Prop
  | init : AmiConnReachable initialAmiConnState
  | step : ∀ s e, AmiConnReachable s → AmiConnReachable (amiConnStep s e)

/-- Decidable equality for operation outcomes. -/
instance {ε α : Type} [DecidableEq ε] [DecidableEq α] :
    DecidableEq (Except ε α) := fun x y =>
  match x, y with
  | .ok a, .ok b =>
    if h : a = b then .isTrue (congrArg Except.ok h)
    else .isFalse (fun hh => h (Except.ok.inj hh))
  | .ok _, .error _ => .isFalse (fun hh => Except.noConfusion hh)
  | .error _, .ok _ => .isFalse (fun hh => Except.noConfusion hh)
  | .error e, .error f =>
    if h : e = f then .isTrue (congrArg Except.error h)
    else .isFalse (fun hh => h (Except.error.inj hh))

/-- The spec's record invariant: `endTime` is present iff the status is
terminal, and `duration` is present iff the status is terminal. -/
def endTimesIff (c : Call) : Prop :=
  (c.endTime.isSome = true ↔ (c.status = .ended ∨ c.status = .failed)) ∧
  (c.duration.isSome = true ↔ (c.status = .ended ∨ c.status = .failed))

instance (c : Call) : Decidable (endTimesIff c) := by
  unfold endTimesIff; infer_instance

/-- A finalized PBX call record, used as a concrete input. -/
def exEndedCall : Call :=
  { id := "c1", «from» := "100", «to» := "200", status := .ended,
    startTime := 0, endTime := some 5000, duration := some 5,
    channel := some "SIP/100-1", provider := .asterisk }

/-- A store holding only the finalized call. -/
def exStore1 : CallStore := [("c1", exEndedCall)]

/-- A ringing PBX call record, used as a concrete input. -/
def exIncomingCall : Call :=
  { id := "c2", «from» := "100", «to» := "1001", status := .incoming,
    startTime := 1000, channel := some "SIP/100-2", provider := .asterisk }

/-- A store holding only the ringing call. -/
def exStore2 : CallStore := [("c2", exIncomingCall)]

/-- A ringing Twilio call record, used as a concrete input. -/
def exTwilioCall : Call :=
  { id := "CA1", «from» := "+15550001111", «to» := "+15550002222",
    status := .incoming, startTime := 2000,
    channel := some "Twilio/CA1", twilioCallSid := some "CA1",
    provider := .twilio }

/-- A store holding only the Twilio call. -/
def exStore3 : CallStore := [("CA1", exTwilioCall)]

/-- A repeated `ringing` status callback for the stored Twilio call. -/
def exWebhookRinging : TwilioWebhookBody :=
  { CallSid := some "CA1", From := "+15550001111", To := "+15550002222",
    CallStatus := "ringing", Direction := "inbound" }

/-- A pending-action table with one outstanding command. -/
def exPending1 : PendingActions := [("action_1_10", 7)]

/-- A pending-action table with two concurrently outstanding commands. -/
def exPending2 : PendingActions := [("action_1_10", 1), ("action_2_11", 2)]

/-- A late (or matched) response frame for the first outstanding id. -/
def exMsgA : AmiMessage := { ActionID := some "action_1_10", Response := some "Success" }

/-- A response frame for the second outstanding id. -/
def exMsgB : AmiMessage := { ActionID := some "action_2_11", Response := some "Success" }

/-!  Store and pending-table lemmas shared by the claim theorems. -/

lemma getCall_updateCall (s : CallStore) (callId : String) (u : CallUpdate) :
    getCall (updateCall s callId u) callId =
      (getCall s callId).map (fun c => applyUpdate c u) := by
  induction s with
  | nil => simp [getCall, updateCall]
  | cons hd tl ih =>
    obtain ⟨k, c⟩ := hd
    by_cases h : k = callId <;> simp [getCall, updateCall, h, ih]

lemma getCall_createCall (s : CallStore) (c : Call) :
    getCall (createCall s c) c.id = some c := by
  induction s with
  | nil => simp [getCall, createCall]
  | cons hd tl ih =>
    obtain ⟨k, c0⟩ := hd
    by_cases h : k = c.id <;> simp [getCall, createCall, h, ih]

lemma pendingGet_delete_self (p : PendingActions) (aid : String) :
    pendingGet (pendingDelete p aid) aid = none := by
  induction p with
  | nil => simp [pendingGet, pendingDelete]
  | cons hd tl ih =>
    obtain ⟨k, caller⟩ := hd
    by_cases h : k = aid <;> simp [pendingGet, pendingDelete, h, ih]

lemma pendingGet_delete_ne (p : PendingActions) (a b : String) (h : a ≠ b) :
    pendingGet (pendingDelete p b) a = pendingGet p a := by
  induction p with
  | nil => simp [pendingGet, pendingDelete]
  | cons hd tl ih =>
    obtain ⟨k, caller⟩ := hd
    by_cases hk : k = b
    · subst hk
      simp [pendingGet, pendingDelete, ih, Ne.symm h]
    · by_cases ha : k = a <;> simp [pendingGet, pendingDelete, hk, ha, ih, h]

lemma pendingHas_eq_isSome (p : PendingActions) (aid : String) :
    pendingHas p aid = (pendingGet p aid).isSome := by
  induction p with
  | nil => simp [pendingHas, pendingGet]
  | cons hd tl ih =>
    obtain ⟨k, caller⟩ := hd
    by_cases h : k = aid <;> simp [pendingHas, pendingGet, h, ih]

lemma reconnStateAfter_stopped (n : Nat) (hn : 4 ≤ n) :
    reconnStateAfter n =
      { connectionAttempts := n + 1, reconnectTimer := none } := by
  induction n with
  | zero => omega
  | succ m ih =>
    have hm : m = 3 ∨ 4 ≤ m := by omega
    rcases hm with hm | hm
    · subst hm
      decide
    · rw [reconnStateAfter, ih hm]
      have hge : maxRetries ≤ m + 1 + 1 := by
        simp [maxRetries]; omega
      simp [failedAttemptCycle, reconnectTimerFires, scheduleReconnect, hge]

/-- C4 counterexample: the provider-reported failure status `busy` is sent
to canonical `ended`, not to `failed`, refuting the claim that every
provider failure status maps to `failed`. -/
theorem busy_maps_to_ended_not_failed :
    mapTwilioStatusToCallStatus "busy" = .ended ∧
    mapTwilioStatusToCallStatus "busy" ≠ .failed := by
  constructor
  · rfl
  · intro h
    exact absurd h (by decide)

/-- C4 (amended): the fixed lookup sends `queued`/`ringing` to `incoming`,
`in-progress` to `connected`, and all of `completed`, `busy`, `no-answer`,
`failed`, `canceled` to `ended`; only a provider status outside this table
maps to `failed`. -/
theorem twilio_status_lookup_table :
    mapTwilioStatusToCallStatus "queued" = .incoming ∧
    mapTwilioStatusToCallStatus "ringing" = .incoming ∧
    mapTwilioStatusToCallStatus "in-progress" = .connected ∧
    mapTwilioStatusToCallStatus "completed" = .ended ∧
    mapTwilioStatusToCallStatus "busy" = .ended ∧
    mapTwilioStatusToCallStatus "no-answer" = .ended ∧
    mapTwilioStatusToCallStatus "failed" = .ended ∧
    mapTwilioStatusToCallStatus "canceled" = .ended ∧
    ∀ st : String, st ≠ "queued" → st ≠ "ringing" → st ≠ "in-progress" →
      st ≠ "completed" → st ≠ "busy" → st ≠ "no-answer" → st ≠ "failed" →
      st ≠ "canceled" → mapTwilioStatusToCallStatus st = .failed := by
  refine ⟨rfl, rfl, rfl, rfl, rfl, rfl, rfl, rfl, ?_⟩
  intro st h1 h2 h3 h4 h5 h6 h7 h8
  simp [mapTwilioStatusToCallStatus, h1, h2, h3, h4, h5, h6, h7, h8]

/-- C4 witness: an unmapped provider status falls through to `failed`. -/
theorem twilio_status_lookup_witness :
    mapTwilioStatusToCallStatus "voicemail" = .failed :=
  twilio_status_lookup_table.2.2.2.2.2.2.2.2 "voicemail"
    (by decide) (by decide) (by decide) (by decide)
    (by decide) (by decide) (by decide) (by decide)

/-- C5: the provider router is a total deterministic function: an explicit
provider wins unconditionally; with none given, the call routes to Twilio
exactly when the destination starts with `+` or is longer than 6
characters, else to Asterisk; in particular `+15551234567` routes to
Twilio, `2000` to Asterisk, and `2000` with an explicit Twilio override to
Twilio. -/
theorem provider_router_correct :
    (∀ r : CallRequest, determineProvider r = .twilio ∨
      determineProvider r = .asterisk) ∧
    (∀ (r : CallRequest) (p : Provider), r.provider = some p →
      determineProvider r = p) ∧
    (∀ r : CallRequest, r.provider = none →
      (determineProvider r = .twilio ↔
        (strStartsWith r.to "+" = true ∨ r.to.length > 6))) ∧
    determineProvider { «from» := "1001", «to» := "+15551234567" } = .twilio ∧
    determineProvider { «from» := "1001", «to» := "2000" } = .asterisk ∧
    determineProvider
      { «from» := "1001", «to» := "2000", provider := some .twilio } = .twilio := by
  refine ⟨?_, ?_, ?_, by decide, by decide, rfl⟩
  · intro r
    cases determineProvider r
    · right; rfl
    · left; rfl
  · intro r p h
    simp [determineProvider, h]
  · intro r h
    constructor
    · intro ht
      by_contra hcon
      push_neg at hcon
      have h1 : strStartsWith r.to "+" = false := by
        rw [← Bool.not_eq_true]; exact hcon.1
      have h2 : ¬ r.to.length > 6 := by omega
      simp [determineProvider, h, h1, h2] at ht
    · intro hor
      rcases hor with hc | hc <;> simp [determineProvider, h, hc]

/-- C5 witness: the explicit-override conjunct applied to a concrete
request. -/
theorem provider_router_witness :
    determineProvider
      { «from» := "2000", «to» := "1001", provider := some .asterisk } =
      .asterisk :=
  provider_router_correct.2.1
    { «from» := "2000", «to» := "1001", provider := some .asterisk }
    .asterisk rfl

/-- C1 counterexample: `hangupCall` on a call that is already `ended`
returns success and rewrites the stored record (fresh `endTime` and
`duration`) instead of returning an invalid-state error and leaving the
record unchanged. -/
theorem hangup_ignores_terminal_state :
    (hangupCall exStore1 "c1" 9000 false true).2 =
      .ok { type := .ended, callId := "c1" } ∧
    getCall (hangupCall exStore1 "c1" 9000 false true).1 "c1" ≠
      some exEndedCall := by
  constructor
  · rfl
  · intro h
    exact absurd h (by decide)

/-- C1 (amended): `acceptCall` and `rejectCall` reject any call whose
status is not `incoming`, returning the error with the store unchanged;
`hangupCall`, however, performs no state check — for any stored call with
a channel, including one already in a terminal state, it succeeds and
re-finalizes the record. -/
theorem invalid_transition_guards :
    (∀ (s : CallStore) (callId : String) (c : Call),
      getCall s callId = some c → c.status ≠ .incoming →
      acceptCall s callId = (s, .error .notIncoming)) ∧
    (∀ (s : CallStore) (callId : String) (now : Nat) (c : Call),
      getCall s callId = some c → c.status ≠ .incoming →
      rejectCall s callId now = (s, .error .notIncoming)) ∧
    (∀ (s : CallStore) (callId : String) (now : Nat) (c : Call)
      (ch : String),
      getCall s callId = some c → c.channel = some ch →
      c.status = .ended ∨ c.status = .failed →
      hangupCall s callId now false true =
        (updateCall s callId
          { status := some .ended, endTime := some now,
            duration := some (durationSecondsOf c.startTime now) },
         .ok { type := .ended, callId := callId })) := by
  refine ⟨?_, ?_, ?_⟩
  · intro s callId c h hst
    simp [acceptCall, h, hst]
  · intro s callId now c h hst
    simp [rejectCall, h, hst]
  · intro s callId now c ch h hch _hterm
    simp [hangupCall, h, hch]

/-- C1 witness: the accept guard applied to the stored `ended` call. -/
theorem invalid_transition_guards_witness :
    acceptCall exStore1 "c1" = (exStore1, .error .notIncoming) :=
  invalid_transition_guards.1 exStore1 "c1" exEndedCall (by decide) (by decide)

/-- C2 counterexample: rejecting the stored ringing call yields a record
with status `ended` and `endTime` set but no `duration`, violating the
claimed iff between terminal status and presence of both fields. -/
theorem reject_omits_duration :
    getCall (rejectCall exStore2 "c2" 9000).1 "c2" =
      some { exIncomingCall with status := .ended, endTime := some 9000 } ∧
    ¬ endTimesIff { exIncomingCall with status := .ended, endTime := some 9000 } := by
  constructor
  · rfl
  · decide

/-- C2 (amended): records produced by call creation satisfy the
endTime/duration iff, `acceptCall` preserves it, and `hangupCall`, the PBX
hangup event, a `completed` dial status and a `completed` webhook all
establish it on the record they finalize; but the iff does not hold for
every reachable record — `rejectCall` (and a `busy`/`no-answer` dial
status) enters `ended` setting `endTime` without `duration`. -/
theorem endTime_duration_discipline :
    (∀ (f t cid : String) (now k : Nat),
      endTimesIff (makeCallRecord f t cid now k)) ∧
    (∀ (cid cin ext : String) (now : Nat) (ch : Option String),
      endTimesIff (incomingCallRecord cid cin ext now ch)) ∧
    (∀ (b : TwilioWebhookBody) (cid : String) (now : Nat),
      endTimesIff (webhookCallRecord b cid now)) ∧
    (∀ (s : CallStore) (callId : String) (c c' : Call),
      getCall s callId = some c → endTimesIff c →
      getCall (acceptCall s callId).1 callId = some c' → endTimesIff c') ∧
    (∀ (s : CallStore) (callId : String) (now : Nat) (c c' : Call)
      (ch : String),
      getCall s callId = some c → c.channel = some ch →
      getCall (hangupCall s callId now false true).1 callId = some c' →
      endTimesIff c') ∧
    (∀ (s : CallStore) (callId : String) (now : Nat) (c c' : Call),
      getCall s callId = some c →
      getCall (handleCallHangup s (some callId) now).1 callId = some c' →
      endTimesIff c') ∧
    (∀ (s : CallStore) (b : DialStatusBody) (sid : String) (now : Nat)
      (c c' : Call),
      b.CallSid = some sid → getCall s sid = some c →
      b.DialCallStatus = "completed" →
      getCall (handleDialStatus s b now).1 sid = some c' → endTimesIff c') ∧
    (∀ (s : CallStore) (b : TwilioWebhookBody) (sid freshId : String)
      (now : Nat) (c c' : Call),
      b.CallSid = some sid → getCall s sid = some c → endTimesIff c →
      b.CallStatus = "completed" →
      getCall (handleIncomingWebhook s b now freshId).1 sid = some c' →
      endTimesIff c') := by
  refine ⟨?_, ?_, ?_, ?_, ?_, ?_, ?_, ?_⟩
  · intro f t cid now k
    simp [endTimesIff, makeCallRecord]
  · intro cid cin ext now ch
    simp [endTimesIff, incomingCallRecord]
  · intro b cid now
    unfold endTimesIff webhookCallRecord
    split <;> simp
  · intro s callId c c' h hinv h'
    by_cases hst : c.status = .incoming
    · simp [acceptCall, h, hst, getCall_updateCall] at h'
      rcases hinv with ⟨he, hd⟩
      rw [hst] at he hd
      simp at he hd
      subst h'
      simp [endTimesIff, applyUpdate, he, hd]
    · simp [acceptCall, h, hst] at h'
      exact h' ▸ hinv
  · intro s callId now c c' ch h hch h'
    simp [hangupCall, h, hch, getCall_updateCall] at h'
    subst h'
    simp [endTimesIff, applyUpdate]
  · intro s callId now c c' h h'
    simp [handleCallHangup, h, getCall_updateCall] at h'
    subst h'
    simp [endTimesIff, applyUpdate]
  · intro s b sid now c c' hsid h hD h'
    simp [handleDialStatus, hsid, h, hD, getCall_updateCall] at h'
    subst h'
    simp [endTimesIff, applyUpdate]
  · intro s b sid freshId now c c' hsid h hinv hCS h'
    by_cases hst : c.status = .ended
    · simp [handleIncomingWebhook, hsid, h, hCS,
        mapTwilioStatusToCallStatus, hst] at h'
      exact h' ▸ hinv
    · have hst' : ¬ (CallStatus.ended = c.status) := fun hh => hst hh.symm
      simp [handleIncomingWebhook, hsid, h, hCS, mapTwilioStatusToCallStatus,
        hst', getCall_updateCall] at h'
      subst h'
      simp [endTimesIff, applyUpdate]

/-- C2 witness: accepting the stored ringing call preserves the iff on the
resulting connected record. -/
theorem endTime_duration_discipline_witness :
    endTimesIff { exIncomingCall with status := .connected } :=
  endTime_duration_discipline.2.2.2.1 exStore2 "c2" exIncomingCall
    { exIncomingCall with status := .connected }
    (by decide) (by decide) (by decide)

/-- C3 counterexample: the first scheduled reconnect delay after a fresh
counter is 2000 ms, not the claimed 1000 ms (the counter is incremented
before the delay is computed). -/
theorem first_backoff_delay_not_one_second :
    reconnStateAfter 0 =
      { connectionAttempts := 1, reconnectTimer := some 2000 } ∧
    (reconnStateAfter 0).reconnectTimer ≠ some 1000 := by
  constructor
  · rfl
  · intro h
    exact absurd h (by decide)

/-- C3 (amended): consecutive failures from a fresh counter schedule
delays 2s, 4s, 8s, 16s (each `min(1000 * 2 ^ attempts, 30000)` for the
already-incremented counter); once the counter reaches `maxRetries` (5)
no further timer is ever armed, so the 30s cap is never reached; the
manual `reconnect` call resets the counter to 0, clears any armed timer
and retries immediately. -/
theorem backoff_schedule_and_manual_reset :
    reconnStateAfter 0 =
      { connectionAttempts := 1, reconnectTimer := some 2000 } ∧
    reconnStateAfter 1 =
      { connectionAttempts := 2, reconnectTimer := some 4000 } ∧
    reconnStateAfter 2 =
      { connectionAttempts := 3, reconnectTimer := some 8000 } ∧
    reconnStateAfter 3 =
      { connectionAttempts := 4, reconnectTimer := some 16000 } ∧
    (∀ n, 4 ≤ n → reconnStateAfter n =
      { connectionAttempts := n + 1, reconnectTimer := none }) ∧
    (∀ n d, (reconnStateAfter n).reconnectTimer = some d →
      d = min (1000 * 2 ^ (n + 1)) 30000 ∧ d < 30000) ∧
    (∀ s, reconnect s =
      ({ connectionAttempts := 0, reconnectTimer := none }, true)) := by
  refine ⟨rfl, rfl, rfl, rfl, fun n hn => reconnStateAfter_stopped n hn,
    ?_, fun s => rfl⟩
  intro n d hd
  rcases Nat.lt_or_ge n 4 with hn | hn
  · interval_cases n
    · rw [show reconnStateAfter 0 =
        { connectionAttempts := 1, reconnectTimer := some 2000 } from rfl] at hd
      simp at hd
      subst hd
      decide
    · rw [show reconnStateAfter 1 =
        { connectionAttempts := 2, reconnectTimer := some 4000 } from rfl] at hd
      simp at hd
      subst hd
      decide
    · rw [show reconnStateAfter 2 =
        { connectionAttempts := 3, reconnectTimer := some 8000 } from rfl] at hd
      simp at hd
      subst hd
      decide
    · rw [show reconnStateAfter 3 =
        { connectionAttempts := 4, reconnectTimer := some 16000 } from rfl] at hd
      simp at hd
      subst hd
      decide
  · rw [reconnStateAfter_stopped n hn] at hd
    exact absurd hd (by simp)

/-- C3 witness: after the counter has reached the ceiling, the fifth and
later failures arm no timer. -/
theorem backoff_schedule_witness :
    reconnStateAfter 5 =
      { connectionAttempts := 6, reconnectTimer := none } :=
  backoff_schedule_and_manual_reset.2.2.2.2.1 5 (by decide)

lemma webhook_noop_of_same_status (s : CallStore) (b : TwilioWebhookBody)
    (now : Nat) (freshId : String) (c : Call)
    (h : getCall s (b.CallSid.getD freshId) = some c)
    (heq : mapTwilioStatusToCallStatus b.CallStatus = c.status) :
    handleIncomingWebhook s b now freshId = (s, []) := by
  simp [handleIncomingWebhook, h, heq]

lemma webhook_update_shape (s : CallStore) (b : TwilioWebhookBody)
    (now : Nat) (freshId : String) (c : Call)
    (h : getCall s (b.CallSid.getD freshId) = some c)
    (hne : mapTwilioStatusToCallStatus b.CallStatus ≠ c.status) :
    ∃ u : CallUpdate,
      u.status = some (mapTwilioStatusToCallStatus b.CallStatus) ∧
      handleIncomingWebhook s b now freshId =
        (updateCall s (b.CallSid.getD freshId) u,
         [{ type := if mapTwilioStatusToCallStatus b.CallStatus = .connected
              then .connected else .ended,
            callId := b.CallSid.getD freshId }]) := by
  refine ⟨⟨some (mapTwilioStatusToCallStatus b.CallStatus),
    (if b.CallStatus = "completed" ∨ b.CallStatus = "busy" ∨
        b.CallStatus = "no-answer" ∨ b.CallStatus = "failed"
      then some now else none),
    (if b.CallStatus = "completed" ∨ b.CallStatus = "busy" ∨
        b.CallStatus = "no-answer" ∨ b.CallStatus = "failed"
      then some (durationSecondsOf c.startTime now) else none)⟩,
    rfl, ?_⟩
  simp [handleIncomingWebhook, h, hne]

lemma connected_noop_of_connected (s : CallStore) (callId : String)
    (c : Call) (h : getCall s callId = some c)
    (hst : c.status = .connected) :
    handleCallConnected s (some callId) = (s, []) := by
  simp [handleCallConnected, h, hst]

/-- C6: a status update that maps to the call's current status is a
no-op — store unchanged, no notification — for both the cloud webhook and
the PBX answered event; consequently, delivering the same update twice
emits exactly one notification: the first delivery emits one, the
re-delivery emits none. -/
theorem status_update_idempotent :
    (∀ (s : CallStore) (b : TwilioWebhookBody) (now : Nat)
      (freshId : String) (c : Call),
      getCall s (b.CallSid.getD freshId) = some c →
      mapTwilioStatusToCallStatus b.CallStatus = c.status →
      handleIncomingWebhook s b now freshId = (s, [])) ∧
    (∀ (s : CallStore) (b : TwilioWebhookBody) (now now2 : Nat)
      (freshId : String) (c : Call),
      getCall s (b.CallSid.getD freshId) = some c →
      mapTwilioStatusToCallStatus b.CallStatus ≠ c.status →
      (handleIncomingWebhook s b now freshId).2.length = 1 ∧
      handleIncomingWebhook (handleIncomingWebhook s b now freshId).1 b now2
        freshId = ((handleIncomingWebhook s b now freshId).1, [])) ∧
    (∀ (s : CallStore) (callId : String) (c : Call),
      getCall s callId = some c → c.status = .connected →
      handleCallConnected s (some callId) = (s, [])) ∧
    (∀ (s : CallStore) (callId : String) (c : Call),
      getCall s callId = some c → c.status ≠ .connected →
      (handleCallConnected s (some callId)).2.length = 1 ∧
      handleCallConnected (handleCallConnected s (some callId)).1
        (some callId) = ((handleCallConnected s (some callId)).1, [])) := by
  refine ⟨webhook_noop_of_same_status, ?_,
    connected_noop_of_connected, ?_⟩
  · intro s b now now2 freshId c h hne
    obtain ⟨u, hu, heq⟩ := webhook_update_shape s b now freshId c h hne
    constructor
    · rw [heq]
      rfl
    · rw [heq]
      apply webhook_noop_of_same_status _ _ _ _ (applyUpdate c u)
      · rw [getCall_updateCall, h]
        rfl
      · simp [applyUpdate, hu]
  · intro s callId c h hst
    have hfirst : handleCallConnected s (some callId) =
        (updateCall s callId { status := some .connected },
         [{ type := .connected, callId := callId }]) := by
      simp [handleCallConnected, h, hst]
    constructor
    · rw [hfirst]
      rfl
    · rw [hfirst]
      apply connected_noop_of_connected _ _
        (applyUpdate c { status := some .connected })
      · rw [getCall_updateCall, h]
        rfl
      · simp [applyUpdate]

/-- C6 witness: re-delivering the `ringing` callback for the stored
ringing Twilio call changes nothing and emits nothing. -/
theorem status_update_idempotent_witness :
    handleIncomingWebhook exStore3 exWebhookRinging 5 "fresh" =
      (exStore3, []) :=
  status_update_idempotent.1 exStore3 exWebhookRinging 5 "fresh"
    exTwilioCall (by decide) (by decide)

/-- C7: when the per-command timeout fires for an outstanding action, the
caller is failed with the timeout error and the pending entry is removed;
a late response bearing that action identifier afterwards leaves the
table unchanged and is never resolved to any caller (it is classified as
an event or dropped). -/
theorem command_timeout_drops_pending :
    ∀ (p : PendingActions) (aid : String) (caller : Nat) (msg : AmiMessage),
      pendingGet p aid = some caller →
      msg.ActionID = some aid →
      fireActionTimeout p aid = (pendingDelete p aid, true) ∧
      pendingGet (pendingDelete p aid) aid = none ∧
      (handleAmiMessage (pendingDelete p aid) msg).1 = pendingDelete p aid ∧
      (∀ (c : Nat) (m : AmiMessage),
        (handleAmiMessage (pendingDelete p aid) msg).2 ≠
          .resolvedCaller c m) := by
  intro p aid caller msg hget hmid
  have hhas : pendingHas p aid = true := by
    rw [pendingHas_eq_isSome, hget]
    rfl
  have hdel : pendingGet (pendingDelete p aid) aid = none :=
    pendingGet_delete_self p aid
  refine ⟨by simp [fireActionTimeout, hhas], hdel, ?_, ?_⟩
  · cases hev : msg.Event.isSome <;>
      simp [handleAmiMessage, hmid, hdel, hev]
  · intro c m
    cases hev : msg.Event.isSome <;>
      simp [handleAmiMessage, hmid, hdel, hev]

/-- C7 witness: the single outstanding command times out, its entry is
removed, and the late response leaves the (now empty) table unchanged. -/
theorem command_timeout_witness :
    fireActionTimeout exPending1 "action_1_10" =
      (pendingDelete exPending1 "action_1_10", true) ∧
    pendingGet (pendingDelete exPending1 "action_1_10") "action_1_10" =
      none ∧
    (handleAmiMessage (pendingDelete exPending1 "action_1_10") exMsgA).1 =
      pendingDelete exPending1 "action_1_10" :=
  have th := command_timeout_drops_pending exPending1 "action_1_10" 7 exMsgA
    (by decide) (by decide)
  ⟨th.1, th.2.1, th.2.2.1⟩

/-- C8: responses are matched to callers by action identifier, not by
arrival order: with two distinct identifiers outstanding, delivering the
second command's response first resolves its own caller, and the first
command's response then resolves the first caller. -/
theorem responses_matched_by_action_id :
    ∀ (p : PendingActions) (a b : String) (ca cb : Nat)
      (msgA msgB : AmiMessage),
      a ≠ b → pendingGet p a = some ca → pendingGet p b = some cb →
      msgA.ActionID = some a → msgB.ActionID = some b →
      handleAmiMessage p msgB =
        (pendingDelete p b, .resolvedCaller cb msgB) ∧
      handleAmiMessage (pendingDelete p b) msgA =
        (pendingDelete (pendingDelete p b) a, .resolvedCaller ca msgA) := by
  intro p a b ca cb msgA msgB hab hga hgb hma hmb
  constructor
  · simp [handleAmiMessage, hmb, hgb]
  · have hga' : pendingGet (pendingDelete p b) a = some ca := by
      rw [pendingGet_delete_ne p a b hab]
      exact hga
    simp [handleAmiMessage, hma, hga']

/-- C8 witness: two outstanding commands resolved in reverse order, each
to its own caller. -/
theorem responses_matched_witness :
    handleAmiMessage exPending2 exMsgB =
      (pendingDelete exPending2 "action_2_11", .resolvedCaller 2 exMsgB) ∧
    handleAmiMessage (pendingDelete exPending2 "action_2_11") exMsgA =
      (pendingDelete (pendingDelete exPending2 "action_2_11") "action_1_10",
       .resolvedCaller 1 exMsgA) :=
  responses_matched_by_action_id exPending2 "action_1_10" "action_2_11"
    1 2 exMsgA exMsgB (by decide) (by decide) (by decide)
    (by decide) (by decide)

lemma foldl_append_acc (xs : List String) (acc : String) :
    xs.foldl (fun r s => r ++ s) acc =
      acc ++ xs.foldl (fun r s => r ++ s) "" := by
  induction xs generalizing acc with
  | nil => simp [String.append_empty]
  | cons hd tl ih =>
    simp only [List.foldl]
    rw [ih (acc ++ hd), ih ("" ++ hd), String.empty_append,
      String.append_assoc]

lemma join_cons (x : String) (xs : List String) :
    String.join (x :: xs) = x ++ String.join xs := by
  simp only [String.join, List.foldl]
  rw [foldl_append_acc xs ("" ++ x), String.empty_append]

lemma foldl_param_join (ps : List (String × String)) (acc : String) :
    ps.foldl (fun m kv => m ++ kv.1 ++ ": " ++ kv.2 ++ "\r\n") acc =
      acc ++ String.join
        (ps.map (fun kv => kv.1 ++ ": " ++ kv.2 ++ "\r\n")) := by
  induction ps generalizing acc with
  | nil => simp [String.join, String.append_empty]
  | cons hd tl ih =>
    simp only [List.foldl, List.map]
    rw [ih, join_cons]
    simp [String.append_assoc]

lemma param_line_crlf (ps : List (String × String)) :
    (ps.map (fun kv => kv.1 ++ ": " ++ kv.2)).map (fun l => l ++ "\r\n") =
      ps.map (fun kv => kv.1 ++ ": " ++ kv.2 ++ "\r\n") := by
  induction ps with
  | nil => rfl
  | cons hd tl ih =>
    simp only [List.map]
    rw [ih, String.append_assoc, String.append_assoc]

set_option maxRecDepth 10000

/-- C9 counterexample: the `Originate` frame built by `makeCall` contains
two `ActionID:` lines — the header line bearing the registered identifier
and the parameter line bearing the call id — refuting "exactly one
ActionID line". -/
theorem originate_frame_has_two_actionid_lines :
    countOcc "ActionID:".data
      (buildAmiMessage "Originate"
        (makeCallOriginateParams "1001" "2000" "callid7")
        "action_1_42").data = 2 ∧
    (amiMessageLines "Originate"
      (makeCallOriginateParams "1001" "2000" "callid7")
      "action_1_42").countP
        (fun l => "ActionID:".data.isPrefixOf l.data) = 2 := by
  constructor <;> decide

/-- C9 (amended): every outbound frame is the `Action` line, then the
`ActionID` line carrying the registered identifier, then one `Key: Value`
line per supplied parameter in order, each CRLF-terminated, followed by
the terminating CRLF; `makeCall`'s `Originate` parameter map itself
contains an `ActionID` key with the call id, so that frame carries a
second `ActionID` line. -/
theorem ami_frame_line_structure :
    (∀ (command : String) (params : List (String × String))
      (actionIdValue : String),
      buildAmiMessage command params actionIdValue =
        String.join ((amiMessageLines command params actionIdValue).map
          (fun l => l ++ "\r\n")) ++ "\r\n") ∧
    (∀ fromNum toNum callId : String,
      (makeCallOriginateParams fromNum toNum callId).map Prod.fst =
        ["Channel", "Context", "Exten", "Priority", "CallerID",
         "Timeout", "ActionID"] ∧
      (makeCallOriginateParams fromNum toNum callId).map Prod.snd =
        ["SIP/" ++ fromNum, "default", toNum, "1", fromNum, "30000",
         callId]) := by
  constructor
  · intro command params actionIdValue
    unfold buildAmiMessage amiMessageLines
    rw [foldl_param_join]
    simp only [List.map, join_cons]
    rw [param_line_crlf]
    apply String.ext
    simp [String.data_append, List.append_assoc]
  · intro fromNum toNum callId
    constructor <;> rfl

/-- C10: in every reachable state of the AMI client's connection flags,
`isConnected` is false — the only path that could set it requires a
successful `Login` submitted through `sendAmiCommand`, whose entry guard
already requires `isConnected` — so every `sendAmiCommand` call is
rejected with the not-connected error and the real-AMI paths never run. -/
theorem client_never_reaches_connected :
    ∀ s : AmiConnState, AmiConnReachable s →
      s.isConnected = false ∧ sendAmiCommandAccepts s = false ∧
      sendAmiCommandOutcome s = .error "Not connected to Asterisk AMI" := by
  intro s hs
  induction hs with
  | init => exact ⟨rfl, rfl, rfl⟩
  | step s e hs ih =>
    have hconn : (amiConnStep s e).isConnected = false := by
      cases e <;> simp [amiConnStep, sendAmiCommandAccepts, ih.1]
    exact ⟨hconn, by simp [sendAmiCommandAccepts, hconn],
      by simp [sendAmiCommandOutcome, hconn]⟩

/-- C10 witness: after creating the socket and receiving its `connect`
event, the client is still not connected and commands are rejected. -/
theorem client_never_reaches_connected_witness :
    (amiConnStep (amiConnStep initialAmiConnState .connectStart)
      .socketConnect).isConnected = false ∧
    sendAmiCommandAccepts
      (amiConnStep (amiConnStep initialAmiConnState .connectStart)
        .socketConnect) = false ∧
    sendAmiCommandOutcome
      (amiConnStep (amiConnStep initialAmiConnState .connectStart)
        .socketConnect) = .error "Not connected to Asterisk AMI" :=
  client_never_reaches_connected _
    (AmiConnReachable.step _ _
      (AmiConnReachable.step _ _ AmiConnReachable.init))

end VoIP
